import Mathlib

/-!
Verification development for the rpdictation stop-coordination core
(src/main.rs, src/audio.rs).  Each definition is a shallow embedding of the
piece of source code cited in its doc comment; theorems settle the claims of
the specification against these definitions.
-/

namespace Rpdictation

/-! ## Stop-source race (src/main.rs lines 336-480)

main_async spawns one tokio task per stop source; each task owns the sender
side of a oneshot completion channel and the main task races the four
receivers in a tokio::select! whose arms all use the wildcard pattern, so a
receiver resolves the race both when a value was sent and when the sender was
dropped without sending. -/

/-- The four stop sources raced in main_async (lines 474-479). -/
inductive Source
  | stdin
  | fifo
  | notify
  | signal
deriving DecidableEq

/-- State of a oneshot completion channel as seen by its receiver:
the sender is still alive and has not sent, a value was sent, or the sender
was dropped without sending (tokio oneshot resolves with RecvError then). -/
inductive ChanState
  | pending
  | sent
  | closed
deriving DecidableEq

/-- A receiver future is ready (resolves an awaiting select arm) when a value
was sent or when the sender was dropped. -/
def ChanState.ready : ChanState → Bool
  | .pending => false
  | .sent => true
  | .closed => true

/-- The select of lines 474-479: tokio::select! polls its arms in some order
and completes with the first ready one; the polling order of a given run is
modelled by the list argument. -/
def raceWinner (st : Source → ChanState) : List Source → Option Source
  | [] => none
  | s :: rest => if (st s).ready then some s else raceWinner st rest

/-- Stdin listener task (lines 372-394): when stdin is not a tty the task only
awaits cancellation and never touches its sender; when it is a tty it sends
once a line has been read, else keeps the sender alive while blocked. -/
def stdinChan (isTty lineDone : Bool) : ChanState :=
  if !isTty then ChanState.pending
  else if lineDone then ChanState.sent else ChanState.pending

/-- Fifo listener task (lines 396-421): it sends as soon as the blocking open
of the FIFO completes, else keeps the sender alive while blocked. -/
def fifoChan (openDone : Bool) : ChanState :=
  if openDone then ChanState.sent else ChanState.pending

/-- Notifier listener task (lines 423-455): the notify-send process is spawned
before the task body runs (a spawn failure aborts main_async); the task sends
when the process exits, else keeps the sender alive while waiting. -/
def notifyChan (procExited : Bool) : ChanState :=
  if procExited then ChanState.sent else ChanState.pending

/-- Signal listener task (lines 457-472): the SIGUSR1 subscription is created
inside the spawned task; on subscription failure the task returns the error at
once, dropping its sender, which closes the channel.  On success it sends when
the signal is received. -/
def signalChan (setupOk sigReceived : Bool) : ChanState :=
  if !setupOk then ChanState.closed
  else if sigReceived then ChanState.sent else ChanState.pending

/-- Channel states of the four listeners as observed by the main select,
before any cancellation has been broadcast. -/
def chanStates (isTty lineDone openDone procExited setupOk sigReceived : Bool) :
    Source → ChanState
  | .stdin => stdinChan isTty lineDone
  | .fifo => fifoChan openDone
  | .notify => notifyChan procExited
  | .signal => signalChan setupOk sigReceived

/-- Setup phase of main_async before the race: mkfifo (lines 316-319) and the
notify-send spawn (lines 425-434) run in the main task and propagate their
failures immediately with the question-mark operator. -/
def setupPhase (mkfifoOk spawnOk : Bool) : Except String Unit :=
  if !mkfifoOk then Except.error "mkfifo failed"
  else if !spawnOk then Except.error "Failed to spawn notify-send"
  else Except.ok ()

/-- Any winner returned by the race has a ready channel. -/
theorem raceWinner_ready (st : Source → ChanState) :
    ∀ (order : List Source) (w : Source),
      raceWinner st order = some w → (st w).ready = true := by
  intro order
  induction order with
  | nil => intro w h; simp [raceWinner] at h
  | cons s rest ih =>
    intro w h
    by_cases hs : (st s).ready = true
    · simp [raceWinner, hs] at h
      subst h; exact hs
    · simp only [Bool.not_eq_true] at hs
      simp [raceWinner, hs] at h
      exact ih w h

/-- If some source in the polling order is ready, the race resolves. -/
theorem raceWinner_isSome (st : Source → ChanState) :
    ∀ (order : List Source), (∃ s ∈ order, (st s).ready = true) →
      (raceWinner st order).isSome = true := by
  intro order
  induction order with
  | nil => rintro ⟨s, hs, _⟩; simp at hs
  | cons a rest ih =>
    rintro ⟨s, hs, hready⟩
    by_cases ha : (st a).ready = true
    · simp [raceWinner, ha]
    · simp only [Bool.not_eq_true] at ha
      simp [raceWinner, ha]
      rcases List.mem_cons.mp hs with h | h
      · subst h; rw [hready] at ha; cases ha
      · exact ih ⟨s, h, hready⟩

/-- Claim C3: the race returns exactly one outcome per run (raceWinner is a
function into Option Source), and when every listener set up successfully the
winning source is one whose completion channel actually received a sent value;
moreover the race resolves as soon as some polled channel is ready.  This is
the amended form: without the setup-success hypothesis the winner can be a
closed channel (see the counterexample). -/
theorem single_winner_observed_trigger
    (isTty lineDone openDone procExited sigReceived : Bool) (order : List Source) :
    (∀ w, raceWinner (chanStates isTty lineDone openDone procExited true sigReceived)
        order = some w →
      chanStates isTty lineDone openDone procExited true sigReceived w = ChanState.sent)
    ∧ ((∃ s ∈ order,
          (chanStates isTty lineDone openDone procExited true sigReceived s).ready = true) →
        (raceWinner (chanStates isTty lineDone openDone procExited true sigReceived)
          order).isSome = true) := by
  constructor
  · intro w hw
    have hready := raceWinner_ready _ order w hw
    cases w <;>
      revert hready <;>
      simp [chanStates, stdinChan, fifoChan, notifyChan, signalChan, ChanState.ready] <;>
      cases isTty <;> cases lineDone <;> cases openDone <;>
      cases procExited <;> cases sigReceived <;> simp_all [ChanState.ready]
  · exact raceWinner_isSome _ order

/-- Witness for single_winner_observed_trigger: with an interactive stdin whose
line read completed, polled first, the winner is the stdin source and its
channel indeed holds a sent value. -/
theorem single_winner_observed_trigger_witness :
    chanStates true true false false true false Source.stdin = ChanState.sent :=
  (single_winner_observed_trigger true true false false false
    [Source.stdin, Source.fifo, Source.notify, Source.signal]).1
    Source.stdin (by decide)

/-- Claim C3 counterexample: when the signal listener fails to create its
SIGUSR1 subscription and no external trigger ever fires, the dropped sender
makes the signal receiver ready, the select reports the signal source as the
winner, yet that channel never received a sent value (it is closed). -/
theorem race_winner_not_observed_counterexample :
    raceWinner (chanStates true false false false false false)
      [Source.stdin, Source.fifo, Source.notify, Source.signal] = some Source.signal
    ∧ chanStates true false false false false false Source.signal = ChanState.closed := by
  decide

/-- Claim C2: mkfifo failure and notify-send spawn failure abort main_async
immediately (they run in the main task behind the question-mark operator), but
a failure to create the signal handler is not fatal: the signal task drops its
sender, the race completes with the signal source as the reported stop
outcome, and the error itself is discarded at join.  The last conjunct
exhibits the run in which every external trigger stays silent and the setup
failure alone is reported as the stop outcome "signal". -/
theorem signal_setup_failure_reported_as_outcome :
    setupPhase false true = Except.error "mkfifo failed"
    ∧ setupPhase true false = Except.error "Failed to spawn notify-send"
    ∧ raceWinner (chanStates true false false false false false)
        [Source.stdin, Source.fifo, Source.notify, Source.signal] = some Source.signal
    ∧ signalChan false false = ChanState.closed :=
  ⟨rfl, rfl, by decide, by decide⟩

/-- Claim C4: with a non-interactive stdin the line-input listener never sends
on its completion channel (its channel stays pending until cancellation), so
the race never reports the stdin source as the winner, while any run in which
some other polled channel became ready still resolves to a winner. -/
theorem nontty_stdin_never_wins
    (lineDone openDone procExited setupOk sigReceived : Bool) (order : List Source) :
    stdinChan false lineDone = ChanState.pending
    ∧ (∀ w, raceWinner (chanStates false lineDone openDone procExited setupOk sigReceived)
          order = some w → w ≠ Source.stdin)
    ∧ ((∃ s ∈ order,
          (chanStates false lineDone openDone procExited setupOk sigReceived s).ready = true) →
        (raceWinner (chanStates false lineDone openDone procExited setupOk sigReceived)
          order).isSome = true) := by
  refine ⟨by simp [stdinChan], ?_, raceWinner_isSome _ order⟩
  intro w hw hcontra
  subst hcontra
  have hready := raceWinner_ready _ order Source.stdin hw
  simp [chanStates, stdinChan, ChanState.ready] at hready

/-- Witness for nontty_stdin_never_wins: non-interactive stdin, the FIFO open
completed and the fifo channel is polled, so a winner exists; the stdin
channel is pending and any winner differs from the stdin source. -/
theorem nontty_stdin_never_wins_witness :
    stdinChan false false = ChanState.pending
    ∧ (raceWinner (chanStates false false true false true false)
        [Source.stdin, Source.fifo, Source.notify, Source.signal]).isSome = true := by
  refine ⟨(nontty_stdin_never_wins false true false true false
    [Source.stdin, Source.fifo, Source.notify, Source.signal]).1, ?_⟩
  exact (nontty_stdin_never_wins false true false true false
    [Source.stdin, Source.fifo, Source.notify, Source.signal]).2.2
    ⟨Source.fifo, by decide, by decide⟩

/-! ## Join phase and cleanup (src/main.rs lines 490-516)

After the race, main_async runs
  let _ = tokio::try_join!(timer, stdin, fifo, notify, signal).map_err(..)?;
followed by FIFO removal, PID-file removal, stream drop and WAV finalization.
A JoinHandle future yields Err(JoinError) only when its task panicked or was
aborted; a task that merely returned Err is carried inside the Ok tuple. -/

/-- How one spawned listener task ended, as seen through its JoinHandle. -/
inductive TaskOutcome
  | ok
  | taskErr
  | panicked
deriving DecidableEq

/-- tokio::try_join! over the five JoinHandles (lines 495-502): it fails with
the first JoinError, i.e. exactly when some task panicked; inner task errors
do not fail it. -/
def tryJoinFails (rs : List TaskOutcome) : Bool :=
  rs.any (fun r => r = TaskOutcome.panicked)

/-- Observable effects of main_async from the join (line 495) through WAV
finalization (line 515). -/
structure PostRaceEffects where
  surfacedError : Option String
  removedFifo : Bool
  removedPidFile : Bool
  finalizedWav : Bool
deriving DecidableEq

/-- Lines 495-516 of main_async: the question-mark after the mapped try_join
returns before any cleanup line runs when the join failed, and the let-wildcard
discards the tuple of inner task results otherwise, after which the FIFO is
removed, the PID file is removed, the stream is dropped and the WAV writer is
finalized. -/
def postRace (rs : List TaskOutcome) : PostRaceEffects :=
  if tryJoinFails rs then
    { surfacedError := some "Failed to join", removedFifo := false,
      removedPidFile := false, finalizedWav := false }
  else
    { surfacedError := none, removedFifo := true,
      removedPidFile := true, finalizedWav := true }

/-- Claim C1 counterexample: when the signal task panicked during the join
phase (the five outcomes listed are timer, stdin, fifo, notify, signal), the
coordinator surfaces the aggregate failure but returns early: the FIFO at
/tmp/rpdictation_stop is not removed, the PID file is not removed and the WAV
sink is not finalized, contradicting the claim that all cleanup paths run
unconditionally on that exit path. -/
theorem join_failure_skips_cleanup_counterexample :
    postRace [TaskOutcome.ok, TaskOutcome.ok, TaskOutcome.ok,
        TaskOutcome.ok, TaskOutcome.panicked] =
      { surfacedError := some "Failed to join", removedFifo := false,
        removedPidFile := false, finalizedWav := false } := by
  decide

/-- Claim C1 amended: if any listener task panicked during join, the
coordinator surfaces the single aggregate failure "Failed to join" but returns
early, skipping FIFO removal, PID-file removal and WAV finalization; only when
no task panicked (inner listener errors being discarded rather than surfaced)
do all cleanup paths run, with no error reported. -/
theorem join_failure_aggregate_and_cleanup (rs : List TaskOutcome) :
    (TaskOutcome.panicked ∈ rs →
      (postRace rs).surfacedError = some "Failed to join"
      ∧ (postRace rs).removedFifo = false
      ∧ (postRace rs).removedPidFile = false
      ∧ (postRace rs).finalizedWav = false)
    ∧ (TaskOutcome.panicked ∉ rs →
      (postRace rs).surfacedError = none
      ∧ (postRace rs).removedFifo = true
      ∧ (postRace rs).removedPidFile = true
      ∧ (postRace rs).finalizedWav = true) := by
  have hmem : tryJoinFails rs = true ↔ TaskOutcome.panicked ∈ rs := by
    simp [tryJoinFails, List.any_eq_true]
  constructor
  · intro hp
    rw [postRace, if_pos (hmem.mpr hp)]
    exact ⟨rfl, rfl, rfl, rfl⟩
  · intro hp
    have : tryJoinFails rs = false := by
      cases h : tryJoinFails rs with
      | false => rfl
      | true => exact absurd (hmem.mp h) hp
    rw [postRace, if_neg (by simp [this])]
    exact ⟨rfl, rfl, rfl, rfl⟩

/-- Witness for join_failure_aggregate_and_cleanup: a run in which the fifo
task returned an inner error but nothing panicked surfaces no error and runs
every cleanup. -/
theorem join_failure_aggregate_and_cleanup_witness :
    (postRace [TaskOutcome.ok, TaskOutcome.ok, TaskOutcome.taskErr,
        TaskOutcome.ok, TaskOutcome.ok]).surfacedError = none
    ∧ (postRace [TaskOutcome.ok, TaskOutcome.ok, TaskOutcome.taskErr,
        TaskOutcome.ok, TaskOutcome.ok]).removedFifo = true
    ∧ (postRace [TaskOutcome.ok, TaskOutcome.ok, TaskOutcome.taskErr,
        TaskOutcome.ok, TaskOutcome.ok]).removedPidFile = true
    ∧ (postRace [TaskOutcome.ok, TaskOutcome.ok, TaskOutcome.taskErr,
        TaskOutcome.ok, TaskOutcome.ok]).finalizedWav = true :=
  (join_failure_aggregate_and_cleanup
    [TaskOutcome.ok, TaskOutcome.ok, TaskOutcome.taskErr,
      TaskOutcome.ok, TaskOutcome.ok]).2 (by decide)

/-! ## Single-instance check (src/main.rs lines 75-90)

is_instance_running reads the PID file, parses it, reads /proc/pid/comm and
compares the process name to "rpdictation".  Every failed step exits early
through the question-mark on Option; only the name-mismatch branch removes
the PID file. -/

/-- The Rust str::trim function on a list of characters: remove whitespace from both
ends. -/
def trimChars (cs : List Char) : List Char :=
  ((cs.dropWhile Char.isWhitespace).reverse.dropWhile Char.isWhitespace).reverse

/-- View of the file system and process table consumed by the check: pidFile
is none when the PID file is missing or unreadable, some none when its content
does not parse as an i32, some (some pid) otherwise; comm pid is the content
of /proc/pid/comm as characters, none when that process is gone. -/
structure SystemView where
  pidFile : Option (Option Int)
  comm : Int → Option (List Char)

/-- Return value of the check together with whether it removed the PID file. -/
structure InstanceCheck where
  running : Option Int
  deletedPidFile : Bool
deriving DecidableEq

/-- src/main.rs lines 75-90 (is_instance_running): early return None on a
missing file, an unparsable PID or an unreadable /proc/pid/comm; when the comm
trims to "rpdictation" report the pid as running; otherwise remove the stale
PID file and report not running.  The function returns Option, never an
error. -/
def is_instance_running (sys : SystemView) : InstanceCheck :=
  match sys.pidFile with
  | none => { running := none, deletedPidFile := false }
  | some none => { running := none, deletedPidFile := false }
  | some (some pid) =>
    match sys.comm pid with
    | none => { running := none, deletedPidFile := false }
    | some c =>
      if trimChars c = "rpdictation".toList then
        { running := some pid, deletedPidFile := false }
      else { running := none, deletedPidFile := true }

/-- Claim C7 counterexample: a PID file naming process 42 while no such
process exists (its /proc entry is unreadable) makes the check proceed as if
no instance were running, but the stale PID file is not deleted, contradicting
the claim that both stale cases delete the file. -/
theorem stale_pid_gone_not_deleted_counterexample :
    is_instance_running { pidFile := some (some 42), comm := fun _ => none } =
      { running := none, deletedPidFile := false } := by
  rfl

/-- Claim C7 amended: for a stale PID file the check always proceeds as if no
instance were running and never surfaces an error, but it deletes the file
only in the reused-PID case: when the named process is gone the stale file is
left in place, and only when the process is alive under a different name is
the file removed. -/
theorem stale_pid_self_healing (sys : SystemView) (pid : Int)
    (hfile : sys.pidFile = some (some pid)) :
    (sys.comm pid = none →
      is_instance_running sys = { running := none, deletedPidFile := false })
    ∧ (∀ c, sys.comm pid = some c → trimChars c ≠ "rpdictation".toList →
      is_instance_running sys = { running := none, deletedPidFile := true }) := by
  constructor
  · intro hgone
    simp [is_instance_running, hfile, hgone]
  · intro c hc hname
    have hname2 : trimChars c ≠ ['r', 'p', 'd', 'i', 'c', 't', 'a', 't', 'i', 'o', 'n'] := by
      intro h
      exact hname (by rw [h]; rfl)
    simp [is_instance_running, hfile, hc, hname2]

/-- Witness for stale_pid_self_healing: process 7 is alive but its comm is
"bash", so the check deletes the stale file and reports not running. -/
theorem stale_pid_self_healing_witness :
    is_instance_running
        { pidFile := some (some 7), comm := fun _ => some "bash".toList } =
      { running := none, deletedPidFile := true } :=
  (stale_pid_self_healing
    { pidFile := some (some 7), comm := fun _ => some "bash".toList } 7 rfl).2
    "bash".toList rfl (by decide)

/-! ## Duration gate (src/main.rs lines 521-549)

After finalization main_async computes duration_seconds as the WAV frame
count divided by the sample rate and, when it is below
MIN_RECORDING_DURATION_SECONDS, removes the recording and returns Ok(())
before the provider is ever consulted. -/

/-- src/main.rs line 22. -/
def MIN_RECORDING_DURATION_SECONDS : ℚ := 1

/-- Effects of main_async from the duration check onward. -/
structure PostAnalysis where
  deletedRecording : Bool
  transcribeInvoked : Bool
  returnedOk : Bool
deriving DecidableEq

/-- src/main.rs lines 533-549: when frames / sampleRate is below the minimum,
the recording file is removed and main_async returns Ok(()) without invoking
provider.transcribe; otherwise execution continues with the rest of the
pipeline (abstracted as the rest argument). -/
def durationGate (frames sampleRate : Nat) (rest : PostAnalysis) : PostAnalysis :=
  if (frames : ℚ) / (sampleRate : ℚ) < MIN_RECORDING_DURATION_SECONDS then
    { deletedRecording := true, transcribeInvoked := false, returnedOk := true }
  else rest

/-- Claim C6: every recording whose measured duration is strictly below the
1.0-second minimum is discarded: the recording file is deleted, transcribe is
never invoked, and main_async returns Ok, whatever the downstream pipeline
would have done. -/
theorem short_recording_discarded (frames sampleRate : Nat) (rest : PostAnalysis)
    (h : (frames : ℚ) / (sampleRate : ℚ) < MIN_RECORDING_DURATION_SECONDS) :
    durationGate frames sampleRate rest =
      { deletedRecording := true, transcribeInvoked := false, returnedOk := true } := by
  rw [durationGate, if_pos h]

/-- Witness for short_recording_discarded: a 0.3-second recording (4800 frames
at 16000 Hz) against the 1.0-second minimum is deleted without transcription
and the run still succeeds. -/
theorem short_recording_discarded_witness :
    durationGate 4800 16000
        { deletedRecording := false, transcribeInvoked := true, returnedOk := true } =
      { deletedRecording := true, transcribeInvoked := false, returnedOk := true } :=
  short_recording_discarded 4800 16000
    { deletedRecording := false, transcribeInvoked := true, returnedOk := true }
    (by norm_num [MIN_RECORDING_DURATION_SECONDS])

/-! ## Recording session: audio callback and finalization
(src/main.rs lines 296-312 and 508-528)

The cpal input callback shares the WAV writer with the main task through
Arc<Mutex<Option<WavWriter>>>.  The callback uses try_lock and writes only
when the lock was free and the Option still holds the writer.  On the happy
exit path main_async drops the stream (line 508), then takes the writer out of
the Option under the lock and finalizes it (lines 510-515), and only then
reads back the file size and duration (lines 521-528). -/

/-- Operations touching the shared recording state.  A callback op carries
whether the mutex was free at that instant (try_lock outcome) and the number
of samples in the delivered buffer. -/
inductive SessionOp
  | callback (lockFree : Bool) (samples : Nat)
  | dropStream
  | takeAndFinalize
  | readMetadata
deriving DecidableEq

/-- Whether an operation is an audio callback invocation. -/
def SessionOp.isCallback : SessionOp → Bool
  | .callback _ _ => true
  | _ => false

/-- Shared recording state: whether the cpal stream still invokes callbacks,
the writer Option (some n records n samples written so far, none once the
writer has been taken for finalization), whether finalize already ran, and
whether any sample was ever written after finalization. -/
structure SessionState where
  streamActive : Bool
  writer : Option Nat
  finalized : Bool
  wroteAfterFinalize : Bool
deriving DecidableEq

/-- State at stream.play() (line 314): stream active, writer present and
empty, not finalized. -/
def initSession : SessionState :=
  { streamActive := true, writer := some 0, finalized := false,
    wroteAfterFinalize := false }

/-- One operation on the shared state.  The callback (lines 299-309) runs only
while the stream is alive, acquires the lock with try_lock (a contended lock
means the buffer is dropped without waiting), and writes samples only when the
Option still holds the writer.  dropStream is line 508, takeAndFinalize lines
510-515, readMetadata lines 521-528. -/
def stepOp (st : SessionState) : SessionOp → SessionState
  | .callback lockFree n =>
    if st.streamActive && lockFree then
      match st.writer with
      | some k =>
        { st with
            writer := some (k + n),
            wroteAfterFinalize := st.wroteAfterFinalize || st.finalized }
      | none => st
    else st
  | .dropStream => { st with streamActive := false }
  | .takeAndFinalize => { st with writer := none, finalized := true }
  | .readMetadata => st

/-- Running a list of operations from a state. -/
def runOps (st : SessionState) (ops : List SessionOp) : SessionState :=
  ops.foldl stepOp st

/-- The executions main_async can produce on its happy exit path: callbacks
interleave arbitrarily with the fixed program order dropStream, then
takeAndFinalize, then readMetadata. -/
def ShutdownInterleaving (ops : List SessionOp) : Prop :=
  ∃ cb1 cb2 cb3 cb4 : List SessionOp,
    (∀ op ∈ cb1, op.isCallback = true) ∧ (∀ op ∈ cb2, op.isCallback = true) ∧
    (∀ op ∈ cb3, op.isCallback = true) ∧ (∀ op ∈ cb4, op.isCallback = true) ∧
    ops = cb1 ++ ([SessionOp.dropStream] ++ (cb2 ++ ([SessionOp.takeAndFinalize] ++
      (cb3 ++ ([SessionOp.readMetadata] ++ cb4)))))

/-- Callbacks do not change streamActive, finalized, or (while finalize has
not yet run) wroteAfterFinalize. -/
theorem runOps_callbacks (cbs : List SessionOp) (h : ∀ op ∈ cbs, op.isCallback = true) :
    ∀ st : SessionState, (runOps st cbs).streamActive = st.streamActive
      ∧ (runOps st cbs).finalized = st.finalized
      ∧ (st.finalized = false →
          (runOps st cbs).wroteAfterFinalize = st.wroteAfterFinalize) := by
  induction cbs with
  | nil => intro st; exact ⟨rfl, rfl, fun _ => rfl⟩
  | cons op rest ih =>
    intro st
    have hop : op.isCallback = true := h op (List.mem_cons_self op rest)
    have hrest : ∀ o ∈ rest, o.isCallback = true :=
      fun o ho => h o (List.mem_cons_of_mem op ho)
    cases op with
    | callback lockFree n =>
      have step : (stepOp st (SessionOp.callback lockFree n)).streamActive = st.streamActive
          ∧ (stepOp st (SessionOp.callback lockFree n)).finalized = st.finalized
          ∧ (st.finalized = false →
              (stepOp st (SessionOp.callback lockFree n)).wroteAfterFinalize =
                st.wroteAfterFinalize) := by
        rw [stepOp]
        by_cases hc : st.streamActive && lockFree
        · rw [if_pos hc]
          cases hw : st.writer with
          | some k => exact ⟨rfl, rfl, fun hf => by simp [hf]⟩
          | none => exact ⟨rfl, rfl, fun _ => rfl⟩
        · rw [if_neg hc]
          exact ⟨rfl, rfl, fun _ => rfl⟩
      have tail := ih hrest (stepOp st (SessionOp.callback lockFree n))
      refine ⟨?_, ?_, ?_⟩
      · rw [runOps, List.foldl_cons, ← runOps, tail.1, step.1]
      · rw [runOps, List.foldl_cons, ← runOps, tail.2.1, step.2.1]
      · intro hf
        rw [runOps, List.foldl_cons, ← runOps, tail.2.2 (by rw [step.2.1, hf]),
          step.2.2 hf]
    | dropStream => exact absurd hop (by simp [SessionOp.isCallback])
    | takeAndFinalize => exact absurd hop (by simp [SessionOp.isCallback])
    | readMetadata => exact absurd hop (by simp [SessionOp.isCallback])

/-- Once the stream is dropped, every remaining callback is a no-op. -/
theorem runOps_dead_stream (cbs : List SessionOp)
    (h : ∀ op ∈ cbs, op.isCallback = true) :
    ∀ st : SessionState, st.streamActive = false → runOps st cbs = st := by
  induction cbs with
  | nil => intro st _; rfl
  | cons op rest ih =>
    intro st hdead
    have hop : op.isCallback = true := h op (List.mem_cons_self op rest)
    have hrest : ∀ o ∈ rest, o.isCallback = true :=
      fun o ho => h o (List.mem_cons_of_mem op ho)
    cases op with
    | callback lockFree n =>
      have : stepOp st (SessionOp.callback lockFree n) = st := by
        rw [stepOp, if_neg (by simp [hdead])]
      rw [runOps, List.foldl_cons, ← runOps, this]
      exact ih hrest st hdead
    | dropStream => exact absurd hop (by simp [SessionOp.isCallback])
    | takeAndFinalize => exact absurd hop (by simp [SessionOp.isCallback])
    | readMetadata => exact absurd hop (by simp [SessionOp.isCallback])

/-- Claim C5: on the happy exit path the stream is dropped before the writer
is taken and finalized, which happens before the metadata read (this program
order is the shape of every ShutdownInterleaving), and for every interleaving
of audio callbacks with that sequence no sample is ever written after
finalization; moreover a callback that finds the writer Option empty leaves
the state untouched. -/
theorem no_write_after_finalize (ops : List SessionOp)
    (h : ShutdownInterleaving ops) :
    (runOps initSession ops).wroteAfterFinalize = false
    ∧ (∀ (st : SessionState) (lockFree : Bool) (n : Nat), st.writer = none →
        stepOp st (SessionOp.callback lockFree n) = st) := by
  constructor
  · obtain ⟨cb1, cb2, cb3, cb4, h1, h2, h3, h4, rfl⟩ := h
    have happ : ∀ (st : SessionState) (a b : List SessionOp),
        runOps st (a ++ b) = runOps (runOps st a) b := by
      intro st a b
      rw [runOps, List.foldl_append]
      rfl
    rw [happ, happ, happ, happ, happ, happ]
    have w1 : (runOps initSession cb1).wroteAfterFinalize = false := by
      rw [(runOps_callbacks cb1 h1 initSession).2.2 rfl]
      rfl
    have d2 : (stepOp (runOps initSession cb1) SessionOp.dropStream).streamActive
        = false := rfl
    have e2 : runOps (runOps initSession cb1) [SessionOp.dropStream]
        = stepOp (runOps initSession cb1) SessionOp.dropStream := rfl
    rw [e2, runOps_dead_stream cb2 h2 _ d2]
    have d3 : (stepOp (stepOp (runOps initSession cb1) SessionOp.dropStream)
        SessionOp.takeAndFinalize).streamActive = false := d2
    have e3 : runOps (stepOp (runOps initSession cb1) SessionOp.dropStream)
        [SessionOp.takeAndFinalize]
        = stepOp (stepOp (runOps initSession cb1) SessionOp.dropStream)
          SessionOp.takeAndFinalize := rfl
    rw [e3, runOps_dead_stream cb3 h3 _ d3]
    have d4 : (stepOp (stepOp (stepOp (runOps initSession cb1) SessionOp.dropStream)
        SessionOp.takeAndFinalize) SessionOp.readMetadata).streamActive = false := d3
    have e4 : runOps (stepOp (stepOp (runOps initSession cb1) SessionOp.dropStream)
        SessionOp.takeAndFinalize) [SessionOp.readMetadata]
        = stepOp (stepOp (stepOp (runOps initSession cb1) SessionOp.dropStream)
          SessionOp.takeAndFinalize) SessionOp.readMetadata := rfl
    rw [e4, runOps_dead_stream cb4 h4 _ d4]
    exact w1
  · intro st lockFree n hw
    rw [stepOp]
    by_cases hc : st.streamActive && lockFree
    · rw [if_pos hc, hw]
    · rw [if_neg hc]

/-- Witness for no_write_after_finalize: a run with one callback while
recording and one racing each later gap never writes after finalization, and a
callback against an emptied writer Option is a no-op. -/
theorem no_write_after_finalize_witness :
    (runOps initSession
      [SessionOp.callback true 3, SessionOp.dropStream, SessionOp.callback true 5,
        SessionOp.takeAndFinalize, SessionOp.callback true 7,
        SessionOp.readMetadata, SessionOp.callback false 2]).wroteAfterFinalize = false
    ∧ stepOp ⟨true, none, true, false⟩ (SessionOp.callback true 9) =
      (⟨true, none, true, false⟩ : SessionState) := by
  have h := no_write_after_finalize
    [SessionOp.callback true 3, SessionOp.dropStream, SessionOp.callback true 5,
      SessionOp.takeAndFinalize, SessionOp.callback true 7,
      SessionOp.readMetadata, SessionOp.callback false 2]
    ⟨[SessionOp.callback true 3], [SessionOp.callback true 5],
      [SessionOp.callback true 7], [SessionOp.callback false 2],
      by decide, by decide, by decide, by decide, rfl⟩
  exact ⟨h.1, h.2 _ true 9 rfl⟩

/-- Claim C8: the audio callback is best-effort on the sink lock: whenever
try_lock reports contention the callback changes nothing (the buffer is
silently dropped, no waiting), and whenever the lock is acquired but the
writer Option is empty the callback also changes nothing. -/
theorem callback_best_effort (st : SessionState) (lockFree : Bool) (n : Nat) :
    (lockFree = false → stepOp st (SessionOp.callback lockFree n) = st)
    ∧ (st.writer = none → stepOp st (SessionOp.callback lockFree n) = st) := by
  constructor
  · intro hl
    rw [stepOp, if_neg (by simp [hl])]
  · intro hw
    rw [stepOp]
    by_cases hc : st.streamActive && lockFree
    · rw [if_pos hc, hw]
    · rw [if_neg hc]

/-- Witness for callback_best_effort: a contended callback during an active
recording drops its buffer without touching the state. -/
theorem callback_best_effort_witness :
    stepOp initSession (SessionOp.callback false 11) = initSession :=
  (callback_best_effort initSession false 11).1 rfl

/-! ## Done-notification preview (src/main.rs lines 638-644)

The preview of the transcription is computed as
  if text.len() > 50 { format!("{}...", &text[..50]) } else { text.clone() }
where text.len() is the UTF-8 byte length and &text[..50] is a byte slice
that panics when byte index 50 is out of bounds or not on a character
boundary.  Strings are modelled as lists of unicode scalar values; the byte
length of a character is Char.utf8Size. -/

/-- The Rust str::len value: total UTF-8 byte length. -/
def utf8Len (cs : List Char) : Nat := (cs.map Char.utf8Size).sum

/-- Whether byte index n of the encoded string lies on a character boundary
(or at the very end), as the Rust is_char_boundary check. -/
def boundaryAt : List Char → Nat → Bool
  | _, 0 => true
  | [], _ + 1 => false
  | c :: cs, n + 1 =>
    if c.utf8Size ≤ n + 1 then boundaryAt cs (n + 1 - c.utf8Size) else false

/-- The characters whose encodings fit entirely within the first n bytes:
the content of the byte slice &text[..n] when n is a boundary. -/
def takeBytes : List Char → Nat → List Char
  | _, 0 => []
  | [], _ + 1 => []
  | c :: cs, n + 1 =>
    if c.utf8Size ≤ n + 1 then c :: takeBytes cs (n + 1 - c.utf8Size) else []

/-- src/main.rs lines 639-643: the preview computation; none models the panic
of the byte slice &text[..50] on a non-boundary index. -/
def previewOf (text : List Char) : Option (List Char) :=
  if utf8Len text > 50 then
    if boundaryAt text 50 then some (takeBytes text 50 ++ "...".toList) else none
  else some text

/-- Claim C9 counterexample: a transcription of 49 ASCII characters followed
by a two-byte character and two more letters has byte length 53, and byte
index 50 falls in the middle of the two-byte character, so the preview
computation panics instead of being total. -/
theorem preview_panics_counterexample :
    previewOf (List.replicate 49 'a' ++ ['é', 'b', 'c']) = none := by
  decide

/-- Claim C9 amended: the preview computation is total exactly on the
transcriptions whose byte length is at most 50 or whose byte index 50 falls on
a character boundary; on such strings it returns the text itself when it fits,
and the first 50 bytes followed by "..." when it does not.  A transcription
with a multi-byte character straddling byte index 50 makes the slice panic. -/
theorem preview_total_iff_boundary (text : List Char) :
    ((previewOf text).isSome = (decide (utf8Len text ≤ 50) || boundaryAt text 50))
    ∧ (utf8Len text ≤ 50 → previewOf text = some text)
    ∧ (utf8Len text > 50 → boundaryAt text 50 = true →
        previewOf text = some (takeBytes text 50 ++ "...".toList)) := by
  refine ⟨?_, ?_, ?_⟩
  · by_cases hlen : utf8Len text > 50
    · have hle : ¬ utf8Len text ≤ 50 := by omega
      rw [previewOf, if_pos hlen]
      by_cases hb : boundaryAt text 50 = true
      · simp [hb, hle]
      · simp only [Bool.not_eq_true] at hb
        simp [hb, hle]
    · have hle : utf8Len text ≤ 50 := by omega
      rw [previewOf, if_neg hlen]
      simp [hle]
  · intro hle
    rw [previewOf, if_neg (by omega)]
  · intro hlen hb
    rw [previewOf, if_pos hlen, if_pos hb]

/-- Witness for preview_total_iff_boundary: a 60-byte ASCII transcription is
truncated to its first 50 characters plus the ellipsis. -/
theorem preview_total_iff_boundary_witness :
    previewOf (List.replicate 60 'x') =
      some (takeBytes (List.replicate 60 'x') 50 ++ "...".toList) :=
  (preview_total_iff_boundary (List.replicate 60 'x')).2.2 (by decide) (by decide)

/-! ## WAV encoding round trip (src/audio.rs lines 5-33)

samples_to_wav writes a mono 16-bit integer PCM WAV through hound: the
canonical 44-byte header (RIFF size, "WAVE", a 16-byte "fmt " chunk with
format tag 1, the "data" chunk size) followed by the samples as little-endian
16-bit twos-complement words; the two size fields are u32 and therefore wrap
modulo 2^32.  wav_to_flac starts by parsing that WAV back with the hound reader,
which walks the RIFF chunks, records the "fmt " fields and reads
data-chunk-size bytes of samples.  Bytes are modelled as natural numbers below
256. -/

/-- Little-endian encoding of n on k bytes (the u32 and u16 fields of the
header wrap modulo 2^(8k) exactly as the Rust integer types do). -/
def leBytes : Nat → Nat → List Nat
  | 0, _ => []
  | k + 1, n => n % 256 :: leBytes k (n / 256)

/-- Little-endian value of a byte list. -/
def leVal : List Nat → Nat
  | [] => 0
  | b :: bs => b + 256 * leVal bs

/-- Twos-complement little-endian encoding of an i16 sample, as the hound
write_sample call emits it. -/
def i16ToBytes (s : Int) : List Nat := leBytes 2 ((s % 65536).toNat)

/-- Decoding one i16 sample from its two bytes, as the hound sample reader. -/
def bytesToI16 (b0 b1 : Nat) : Int :=
  if b0 + 256 * b1 < 32768 then ((b0 + 256 * b1 : Nat) : Int)
  else ((b0 + 256 * b1 : Nat) : Int) - 65536

/-- The data-chunk payload: all samples encoded back to back. -/
def sampleData (samples : List Int) : List Nat := (samples.map i16ToBytes).flatten

/-- src/audio.rs lines 5-22 (samples_to_wav): hound writes the canonical
44-byte mono 16-bit PCM header and the sample payload; finalize patches the
RIFF size (36 + data length) and the data-chunk size (2 bytes per sample),
both as u32. -/
def samples_to_wav (samples : List Int) (sampleRate : Nat) : List Nat :=
  [82, 73, 70, 70] ++ (leBytes 4 (36 + 2 * samples.length) ++
    ([87, 65, 86, 69] ++ ([102, 109, 116, 32] ++ (leBytes 4 16 ++
      (leBytes 2 1 ++ (leBytes 2 1 ++ (leBytes 4 sampleRate ++
        (leBytes 4 (2 * sampleRate) ++ (leBytes 2 2 ++ (leBytes 2 16 ++
          ([100, 97, 116, 97] ++ (leBytes 4 (2 * samples.length) ++
            sampleData samples))))))))))))

/-- Reading k bytes from the front of the input, as the hound buffered reads:
fails when the input is shorter than k. -/
def readBytes (k : Nat) (bs : List Nat) : Option (List Nat × List Nat) :=
  if k ≤ bs.length then some (bs.take k, bs.drop k) else none

/-- The fields the hound reader keeps from the "fmt " chunk. -/
structure FmtInfo where
  channels : Nat
  sampleRate : Nat
  bits : Nat
deriving DecidableEq

/-- Parsing the 16-byte PCM "fmt " chunk body: format tag (must be 1 for
integer PCM), channel count, sample rate, byte rate (ignored), block align
(ignored), bits per sample. -/
def parseFmt (fb : List Nat) : Option FmtInfo :=
  (readBytes 2 fb).bind fun tagP =>
  (readBytes 2 tagP.2).bind fun chP =>
  (readBytes 4 chP.2).bind fun rateP =>
  (readBytes 4 rateP.2).bind fun byteRateP =>
  (readBytes 2 byteRateP.2).bind fun blockAlignP =>
  (readBytes 2 blockAlignP.2).bind fun bitsP =>
  if leVal tagP.1 = 1 then
    some { channels := leVal chP.1, sampleRate := leVal rateP.1,
           bits := leVal bitsP.1 }
  else none

/-- The hound chunk walk: read a 4-byte id and a 4-byte little-endian size; on
"fmt " record the format, on "data" stop and keep size bytes of payload
(requiring them to be present), otherwise skip the chunk.  The fuel argument
bounds the number of chunks; each step consumes at least eight bytes, so the
input length is always enough fuel. -/
def parseChunks : Nat → List Nat → Option FmtInfo → Option (FmtInfo × List Nat)
  | 0, _, _ => none
  | fuel + 1, bs, fmtOpt =>
    (readBytes 4 bs).bind fun cidP =>
    (readBytes 4 cidP.2).bind fun szP =>
    if cidP.1 = [100, 97, 116, 97] then
      fmtOpt.bind fun fmt =>
        if leVal szP.1 ≤ szP.2.length then some (fmt, szP.2.take (leVal szP.1))
        else none
    else if cidP.1 = [102, 109, 116, 32] then
      if 16 ≤ leVal szP.1 ∧ leVal szP.1 ≤ szP.2.length then
        (parseFmt (szP.2.take (leVal szP.1))).bind fun fmt =>
          parseChunks fuel (szP.2.drop (leVal szP.1)) (some fmt)
      else none
    else
      if leVal szP.1 ≤ szP.2.length then parseChunks fuel (szP.2.drop (leVal szP.1)) fmtOpt
      else none

/-- Decoding the data-chunk payload into i16 samples two bytes at a time (an
odd trailing byte is dropped, as hound reads size / 2 samples). -/
def decodeSamples : List Nat → List Int
  | b0 :: b1 :: rest => bytesToI16 b0 b1 :: decodeSamples rest
  | _ => []

/-- src/audio.rs lines 26-33, first step of wav_to_flac: the hound WavReader
checks the RIFF/WAVE magic, walks the chunks to the data chunk, then
into_samples reads the 16-bit integer samples. -/
def wav_parse (bs : List Nat) : Option (FmtInfo × List Int) :=
  (readBytes 4 bs).bind fun riffP =>
  if riffP.1 = [82, 73, 70, 70] then
    (readBytes 4 riffP.2).bind fun szP =>
    (readBytes 4 szP.2).bind fun waveP =>
    if waveP.1 = [87, 65, 86, 69] then
      (parseChunks waveP.2.length waveP.2 none).bind fun res =>
      if res.1.bits = 16 then some (res.1, decodeSamples res.2) else none
    else none
  else none

theorem leBytes_length : ∀ k n, (leBytes k n).length = k := by
  intro k
  induction k with
  | zero => intro n; rfl
  | succ k ih => intro n; rw [leBytes, List.length_cons, ih]

theorem leVal_leBytes : ∀ k n, leVal (leBytes k n) = n % 256 ^ k := by
  intro k
  induction k with
  | zero => intro n; simp [leBytes, leVal, Nat.mod_one]
  | succ k ih =>
    intro n
    rw [leBytes, leVal, ih (n / 256), pow_succ, mul_comm (256 ^ k) 256, Nat.mod_mul]

theorem readBytes_exact (k : Nat) (xs ys : List Nat) (h : xs.length = k) :
    readBytes k (xs ++ ys) = some (xs, ys) := by
  subst h
  rw [readBytes, if_pos (by simp)]
  rw [List.take_left, List.drop_left]

theorem readBytes_all (k : Nat) (xs : List Nat) (h : xs.length = k) :
    readBytes k xs = some (xs, []) := by
  have := readBytes_exact k xs [] h
  rwa [List.append_nil] at this

theorem i16ToBytes_cons (s : Int) :
    i16ToBytes s = [(s % 65536).toNat % 256, (s % 65536).toNat / 256 % 256] := by
  rfl

theorem decodeSamples_i16 (s : Int) (h1 : -32768 ≤ s) (h2 : s < 32768)
    (rest : List Nat) :
    decodeSamples (i16ToBytes s ++ rest) = s :: decodeSamples rest := by
  rw [i16ToBytes_cons, List.cons_append, List.cons_append, List.nil_append,
    decodeSamples]
  have : bytesToI16 ((s % 65536).toNat % 256) ((s % 65536).toNat / 256 % 256) = s := by
    rw [bytesToI16]
    split <;> rename_i hcase <;> omega
  rw [this]

theorem sampleData_length (samples : List Int) :
    (sampleData samples).length = 2 * samples.length := by
  induction samples with
  | nil => rfl
  | cons s ss ih =>
    rw [sampleData, List.map_cons, List.flatten_cons]
    rw [List.length_append]
    have : (i16ToBytes s).length = 2 := by rw [i16ToBytes, leBytes_length]
    rw [this, ← sampleData, ih, List.length_cons]
    omega

theorem decodeSamples_sampleData (samples : List Int)
    (hs : ∀ s ∈ samples, -32768 ≤ s ∧ s < 32768) :
    decodeSamples (sampleData samples) = samples := by
  induction samples with
  | nil => rfl
  | cons s ss ih =>
    have h := hs s (List.mem_cons_self s ss)
    rw [sampleData, List.map_cons, List.flatten_cons, ← sampleData,
      decodeSamples_i16 s h.1 h.2 (sampleData ss),
      ih (fun x hx => hs x (List.mem_cons_of_mem s hx))]

/-- Parsing the chunk section the encoder emits: a "fmt " chunk describing
mono 16-bit PCM at the given rate, then the "data" chunk whose u32 size field
carries the payload length modulo 2^32. -/
theorem parseChunks_encoded (k rate dataLen : Nat) (payload : List Nat)
    (hsz : dataLen % 2 ^ 32 ≤ payload.length) :
    parseChunks (k + 2)
      ([102, 109, 116, 32] ++ (leBytes 4 16 ++
        (leBytes 2 1 ++ (leBytes 2 1 ++ (leBytes 4 rate ++
          (leBytes 4 (2 * rate) ++ (leBytes 2 2 ++ (leBytes 2 16 ++
            ([100, 97, 116, 97] ++ (leBytes 4 dataLen ++ payload)))))))))) none =
    some ({ channels := 1, sampleRate := rate % 2 ^ 32, bits := 16 },
          payload.take (dataLen % 2 ^ 32)) := by
  have hsz16 : leVal (leBytes 4 16) = 16 := by rw [leVal_leBytes]; norm_num
  have h1 : leVal (leBytes 2 1) = 1 := by rw [leVal_leBytes]; norm_num
  have h2 : leVal (leBytes 2 2) = 2 := by rw [leVal_leBytes]; norm_num
  have h16 : leVal (leBytes 2 16) = 16 := by rw [leVal_leBytes]; norm_num
  have hr : leVal (leBytes 4 rate) = rate % 2 ^ 32 := by
    rw [leVal_leBytes]; norm_num
  have hd : leVal (leBytes 4 dataLen) = dataLen % 2 ^ 32 := by
    rw [leVal_leBytes]; norm_num
  have hfmtlen :
      (leBytes 2 1 ++ (leBytes 2 1 ++ (leBytes 4 rate ++
        (leBytes 4 (2 * rate) ++ (leBytes 2 2 ++ leBytes 2 16))))).length = 16 := by
    simp [List.length_append, leBytes_length]
  have hfmt : parseFmt (leBytes 2 1 ++ (leBytes 2 1 ++ (leBytes 4 rate ++
      (leBytes 4 (2 * rate) ++ (leBytes 2 2 ++ leBytes 2 16))))) =
      some { channels := 1, sampleRate := rate % 2 ^ 32, bits := 16 } := by
    rw [parseFmt]
    rw [readBytes_exact 2 (leBytes 2 1) _ (leBytes_length 2 1)]
    simp only [Option.some_bind]
    rw [readBytes_exact 2 (leBytes 2 1) _ (leBytes_length 2 1)]
    simp only [Option.some_bind]
    rw [readBytes_exact 4 (leBytes 4 rate) _ (leBytes_length 4 rate)]
    simp only [Option.some_bind]
    rw [readBytes_exact 4 (leBytes 4 (2 * rate)) _ (leBytes_length 4 (2 * rate))]
    simp only [Option.some_bind]
    rw [readBytes_exact 2 (leBytes 2 2) _ (leBytes_length 2 2)]
    simp only [Option.some_bind]
    rw [readBytes_all 2 (leBytes 2 16) (leBytes_length 2 16)]
    simp only [Option.some_bind]
    rw [if_pos h1, h1, h16, hr]
  rw [parseChunks]
  rw [readBytes_exact 4 [102, 109, 116, 32] _ rfl]
  simp only [Option.some_bind]
  rw [readBytes_exact 4 (leBytes 4 16) _ (leBytes_length 4 16)]
  simp only [Option.some_bind]
  rw [if_neg (by decide), if_pos (by decide), hsz16]
  -- regroup the remaining bytes as the 16 fmt-body bytes followed by the rest
  rw [show leBytes 2 1 ++ (leBytes 2 1 ++ (leBytes 4 rate ++
        (leBytes 4 (2 * rate) ++ (leBytes 2 2 ++ (leBytes 2 16 ++
          ([100, 97, 116, 97] ++ (leBytes 4 dataLen ++ payload))))))) =
      (leBytes 2 1 ++ (leBytes 2 1 ++ (leBytes 4 rate ++
        (leBytes 4 (2 * rate) ++ (leBytes 2 2 ++ leBytes 2 16))))) ++
      ([100, 97, 116, 97] ++ (leBytes 4 dataLen ++ payload)) from by
    simp [List.append_assoc]]
  have htaillen :
      ((leBytes 2 1 ++ (leBytes 2 1 ++ (leBytes 4 rate ++
        (leBytes 4 (2 * rate) ++ (leBytes 2 2 ++ leBytes 2 16))))) ++
        ([100, 97, 116, 97] ++ (leBytes 4 dataLen ++ payload))).length =
        24 + payload.length := by
    simp [List.length_append, leBytes_length]
    omega
  rw [if_pos (by rw [htaillen]; omega)]
  rw [List.take_left' hfmtlen, List.drop_left' hfmtlen, hfmt]
  simp only [Option.some_bind]
  -- second chunk: the data chunk
  rw [parseChunks]
  rw [readBytes_exact 4 [100, 97, 116, 97] _ rfl]
  simp only [Option.some_bind]
  rw [readBytes_exact 4 (leBytes 4 dataLen) _ (leBytes_length 4 dataLen)]
  simp only [Option.some_bind]
  simp only [if_true]
  rw [hd, if_pos hsz]

/-- Parsing any output of the encoder: the format is mono 16-bit PCM at the
encoded (wrapped) rate and the recovered payload is the leading part of the sample
bytes selected by the wrapped u32 data-size field. -/
theorem wav_parse_samples_to_wav (samples : List Int) (rate : Nat) :
    wav_parse (samples_to_wav samples rate) =
      some ({ channels := 1, sampleRate := rate % 2 ^ 32, bits := 16 },
            decodeSamples ((sampleData samples).take ((2 * samples.length) % 2 ^ 32))) := by
  rw [wav_parse, samples_to_wav]
  rw [readBytes_exact 4 [82, 73, 70, 70] _ rfl]
  simp only [Option.some_bind, if_true]
  rw [readBytes_exact 4 (leBytes 4 (36 + 2 * samples.length)) _ (leBytes_length 4 _)]
  simp only [Option.some_bind]
  rw [readBytes_exact 4 [87, 65, 86, 69] _ rfl]
  simp only [Option.some_bind, if_true]
  have hlen : ([102, 109, 116, 32] ++ (leBytes 4 16 ++
      (leBytes 2 1 ++ (leBytes 2 1 ++ (leBytes 4 rate ++
        (leBytes 4 (2 * rate) ++ (leBytes 2 2 ++ (leBytes 2 16 ++
          ([100, 97, 116, 97] ++ (leBytes 4 (2 * samples.length) ++
            sampleData samples)))))))))).length =
      ((sampleData samples).length + 30) + 2 := by
    simp [List.length_append, leBytes_length]
    omega
  rw [hlen]
  rw [parseChunks_encoded ((sampleData samples).length + 30) rate
    (2 * samples.length) (sampleData samples)
    (by rw [sampleData_length]; exact Nat.mod_le _ _)]
  simp only [Option.some_bind]
  simp

/-- Claim C10 (amended): for every list of 16-bit samples whose payload fits
the u32 data-size field of the WAV format and every sample rate (a u32),
samples_to_wav succeeds and produces the 44-byte header plus two bytes per
sample, and the WAV reader used as the first step of wav_to_flac parses that
output back to mono 16-bit PCM at the same rate with exactly the original
samples.  The size bound is required: the u32 size fields wrap for longer
sample lists (see the counterexample). -/
theorem wav_roundtrip (samples : List Int) (rate : Nat)
    (hs : ∀ s ∈ samples, -32768 ≤ s ∧ s < 32768)
    (hrate : rate < 2 ^ 32)
    (hlen : 2 * samples.length < 2 ^ 32) :
    (samples_to_wav samples rate).length = 44 + 2 * samples.length
    ∧ wav_parse (samples_to_wav samples rate) =
        some ({ channels := 1, sampleRate := rate, bits := 16 }, samples) := by
  constructor
  · rw [samples_to_wav]
    simp [List.length_append, leBytes_length, sampleData_length]
    omega
  · rw [wav_parse_samples_to_wav, Nat.mod_eq_of_lt hrate,
      Nat.mod_eq_of_lt hlen, ← sampleData_length, List.take_length,
      decodeSamples_sampleData samples hs]

/-- Witness for wav_roundtrip: four samples spanning the i16 range at 16000 Hz
encode into a 52-byte WAV that parses back to exactly the same samples. -/
theorem wav_roundtrip_witness :
    wav_parse (samples_to_wav [1, -1, 32767, -32768] 16000) =
      some ({ channels := 1, sampleRate := 16000, bits := 16 },
        [1, -1, 32767, -32768]) :=
  (wav_roundtrip [1, -1, 32767, -32768] 16000 (by decide) (by norm_num)
    (by norm_num)).2

/-- Claim C10 counterexample: with 2^31 samples the data-chunk byte count is
2^32, whose u32 size field wraps to 0, so parsing the encoded output
succeeds but yields the empty sample list instead of the original: the round
trip does not hold for every finite sample list. -/
theorem wav_size_truncation_counterexample :
    wav_parse (samples_to_wav (List.replicate (2 ^ 31) (0 : Int)) 16000) =
      some ({ channels := 1, sampleRate := 16000, bits := 16 }, [])
    ∧ List.replicate (2 ^ 31) (0 : Int) ≠ [] := by
  constructor
  · rw [wav_parse_samples_to_wav]
    have h1 : (16000 : Nat) % 2 ^ 32 = 16000 := by norm_num
    have h2 : (2 * (List.replicate (2 ^ 31) (0 : Int)).length) % 2 ^ 32 = 0 := by
      rw [List.length_replicate]
      norm_num
    rw [h1, h2, List.take_zero]
    rfl
  · intro h
    have hl := congrArg List.length h
    rw [List.length_replicate] at hl
    simp at hl

end Rpdictation
